import Mathlib

/-
Shallow embedding of `cpp/open3d/t/geometry/PointCloud.cpp` (tensor point
cloud: constructors, Transform / Translate / Scale / Rotate, VoxelDownSample).
Coordinates are modelled as rationals; tensors carry an explicit shape and
device so that the shape / device assertions of the source can be stated.
-/

namespace O3D

/-- A 3-component coordinate row (one point / normal). -/
@[ext] structure V3 where
  x : ℚ
  y : ℚ
  z : ℚ
  deriving DecidableEq, Repr

def addV (p q : V3) : V3 := ⟨p.x + q.x, p.y + q.y, p.z + q.z⟩

def subV (p q : V3) : V3 := ⟨p.x - q.x, p.y - q.y, p.z - q.z⟩

def smulV (s : ℚ) (p : V3) : V3 := ⟨s * p.x, s * p.y, s * p.z⟩

/-- Model of `core::Tensor` as far as this file needs it: a shape, flat
row-major data and a device id. -/
structure Tensor where
  shape : List ℕ
  data : List ℚ
  device : ℕ
  deriving DecidableEq, Repr

/-- Entry (i, j) of a 2-D tensor, row-major (cols taken from the shape). -/
def ent (M : Tensor) (i j : ℕ) : ℚ := M.data.getD (i * M.shape.getD 1 0 + j) 0

/-- Read a length-3 tensor as a vector. -/
def v3OfTensor (t : Tensor) : V3 := ⟨t.data.getD 0 0, t.data.getD 1 0, t.data.getD 2 0⟩

/-- The error taxonomy of the component, plus the std::out_of_range that
`unordered_map::at` throws on a missing key. -/
inductive Err where
  | outOfRange
  | missingAttribute
  | shapeMismatch
  | deviceMismatch
  | invalidArgument
  deriving DecidableEq, Repr

/-- The attribute bundle: the primary "points" tensor parsed into N rows of 3,
and the remaining named attributes as row lists (row-aligned per point). -/
structure PointCloud where
  device : ℕ
  points : List V3
  attrs : List (String × List (List ℚ))
  deriving DecidableEq, Repr

/-- Association-list lookup, first match wins (TensorMap access). -/
def findAttr (name : String) : List (String × List (List ℚ)) → Option (List (List ℚ))
  | [] => none
  | (n, v) :: rest => if n = name then some v else findAttr name rest

/-- Replace the value stored under a name (whole-attribute replacement). -/
def setAttr (name : String) (rows : List (List ℚ)) :
    List (String × List (List ℚ)) → List (String × List (List ℚ))
  | [] => []
  | (n, v) :: rest =>
      if n = name then (n, rows) :: rest else (n, v) :: setAttr name rows rest

/-- Mean over the point axis (`GetPoints().Mean({0})`, lines 74 and 105). -/
def centroid (ps : List V3) : V3 :=
  ⟨(ps.map V3.x).sum / ps.length, (ps.map V3.y).sum / ps.length,
    (ps.map V3.z).sum / ps.length⟩

def GetCenter (pc : PointCloud) : V3 := centroid pc.points

/-! ## Constructor from a name-to-tensor map (lines 58-68)

The C++ delegating constructor evaluates `map_keys_to_tensors.at("points")`
in its initializer list before the body runs; `unordered_map::at` throws
`std::out_of_range` on a missing key, so the `LogError` guard in the body
never fires. The translation keeps that evaluation order. -/

/-- `AssertShapeCompatible({utility::nullopt, 3})`: rank 2, second dim 3. -/
def shapeCompatN3 (s : List ℕ) : Bool := s.length = 2 && s.getD 1 0 = 3

/-- Split flat row-major data into rows of width `w`; the first argument of
the auxiliary function is only a recursion bound (the list length shrinks by
at least one per row when `w` is positive, so `l.length` is enough fuel). -/
def chunkRowsAux (w : ℕ) : ℕ → List ℚ → List (List ℚ)
  | _, [] => []
  | 0, _ :: _ => []
  | fuel + 1, x :: xs => (x :: xs).take w :: chunkRowsAux w fuel ((x :: xs).drop w)

def chunkRows (w : ℕ) (l : List ℚ) : List (List ℚ) :=
  if w = 0 then [] else chunkRowsAux w l.length l

/-- Rows of an N x 3 tensor as vectors. -/
def rows3 : List ℚ → List V3
  | a :: b :: c :: rest => ⟨a, b, c⟩ :: rows3 rest
  | _ => []

/-- Tensor lookup in the name-to-tensor argument map, first match wins. -/
def findTensor (name : String) : List (String × Tensor) → Option Tensor
  | [] => none
  | (n, v) :: rest => if n = name then some v else findTensor name rest

/-- `PointCloud::PointCloud(map_keys_to_tensors)`, lines 58-68. The
initializer list runs `map.at("points").GetDevice()` first (out_of_range on
a missing key); the body then re-checks presence (unreachably) and asserts
the N x 3 shape before copying all entries into the TensorMap. -/
def fromMap (m : List (String × Tensor)) : Except Err PointCloud :=
  match findTensor "points" m with
  | none => .error Err.outOfRange
  | some pts =>
    if (findTensor "points" m).isNone then .error Err.missingAttribute
    else if ¬ shapeCompatN3 pts.shape then .error Err.shapeMismatch
    else .ok
      { device := pts.device
        points := rows3 pts.data
        attrs := (m.filter fun kv => kv.1 ≠ "points").map
          fun kv => (kv.1, chunkRows (kv.2.shape.getD 1 1) kv.2.data) }

/-! ## Transform ops (lines 76-136)

Each operation runs its shape / device assertions first and only then
touches the bundle, mirroring the statement order of the source. An
operation returns the bundle state visible after the call together with the
error thrown, if any; a failed assertion throws before any mutation, so the
error branches return the input bundle unchanged. -/

/-- Apply the 3 x 3 block `M[0:3,0:3]` of a row-major tensor to a vector. -/
def mat3App (M : Tensor) (p : V3) : V3 :=
  ⟨ent M 0 0 * p.x + ent M 0 1 * p.y + ent M 0 2 * p.z,
   ent M 1 0 * p.x + ent M 1 1 * p.y + ent M 1 2 * p.z,
   ent M 2 0 * p.x + ent M 2 1 * p.y + ent M 2 2 * p.z⟩

/-- The translation column `M[0:3,3:4]` of a 4 x 4 transformation. -/
def transPart (M : Tensor) : V3 := ⟨ent M 0 3, ent M 1 3, ent M 2 3⟩

/-- Apply the 3 x 3 block to one attribute row (used for "normals"). -/
def mat3AppRow (M : Tensor) (r : List ℚ) : List ℚ :=
  [ent M 0 0 * r.getD 0 0 + ent M 0 1 * r.getD 1 0 + ent M 0 2 * r.getD 2 0,
   ent M 1 0 * r.getD 0 0 + ent M 1 1 * r.getD 1 0 + ent M 1 2 * r.getD 2 0,
   ent M 2 0 * r.getD 0 0 + ent M 2 1 * r.getD 1 0 + ent M 2 2 * r.getD 2 0]

/-- `PointCloud::Transform`, lines 76-96: assert 4 x 4 shape and device,
then points := R points^T + t transposed back, and if normals are present,
normals := R normals^T transposed back (rotation only). -/
def Transform (pc : PointCloud) (M : Tensor) : PointCloud × Option Err :=
  if M.shape = [4, 4] then
    if M.device = pc.device then
      let pts := pc.points.map fun p => addV (mat3App M p) (transPart M)
      let attrs :=
        match findAttr "normals" pc.attrs with
        | some rows => setAttr "normals" (rows.map (mat3AppRow M)) pc.attrs
        | none => pc.attrs
      ({ pc with points := pts, attrs := attrs }, none)
    else (pc, some Err.deviceMismatch)
  else (pc, some Err.shapeMismatch)

/-- `PointCloud::Translate`, lines 98-109. `core::Tensor transform =
translation` is a shallow copy sharing storage with the caller, and
`transform -= GetCenter()` subtracts in place, writing through the shared
buffer (the aliasing pattern recorded in the design notes of the spec); the
second component of the result is the caller-visible buffer after the call.
With `relative = true` nothing is written to it. -/
def Translate (pc : PointCloud) (translation : Tensor) (relative : Bool) :
    (PointCloud × Tensor) × Option Err :=
  if translation.shape = [3] then
    if translation.device = pc.device then
      let tv := v3OfTensor translation
      let transform := if relative then tv else subV tv (GetCenter pc)
      let buffer :=
        if relative then translation
        else { translation with data := [transform.x, transform.y, transform.z] }
      (({ pc with points := pc.points.map fun p => addV p transform }, buffer),
        none)
    else ((pc, translation), some Err.deviceMismatch)
  else ((pc, translation), some Err.shapeMismatch)

/-- `PointCloud::Scale`, lines 111-118: points := (points - center) * s +
center, normals untouched. -/
def Scale (pc : PointCloud) (scale : ℚ) (center : Tensor) :
    PointCloud × Option Err :=
  if center.shape = [3] then
    if center.device = pc.device then
      let c := v3OfTensor center
      ({ pc with points := pc.points.map fun p => addV (smulV scale (subV p c)) c },
        none)
    else (pc, some Err.deviceMismatch)
  else (pc, some Err.shapeMismatch)

/-- `PointCloud::Rotate`, lines 120-136: assert R 3 x 3, center length 3 and
both devices, then points := R (points - center) + center and, if present,
normals := R normals. -/
def Rotate (pc : PointCloud) (R : Tensor) (center : Tensor) :
    PointCloud × Option Err :=
  if R.shape = [3, 3] then
    if R.device = pc.device then
      if center.shape = [3] then
        if center.device = pc.device then
          let c := v3OfTensor center
          let pts := pc.points.map fun p => addV (mat3App R (subV p c)) c
          let attrs :=
            match findAttr "normals" pc.attrs with
            | some rows => setAttr "normals" (rows.map (mat3AppRow R)) pc.attrs
            | none => pc.attrs
          ({ pc with points := pts, attrs := attrs }, none)
        else (pc, some Err.deviceMismatch)
      else (pc, some Err.shapeMismatch)
    else (pc, some Err.deviceMismatch)
  else (pc, some Err.shapeMismatch)

/-! ## VoxelDownSample (lines 138-163)

Line 139 divides every coordinate by `voxel_size` (no validation of
`voxel_size` happens anywhere in the function) and line 140 casts the result
to Int64 with `Tensor::To`, a per-element static_cast, i.e. truncation
toward zero. The hash map `Activate` call (line 147) is external; per the
spec it returns a boolean mask marking exactly one winning row per distinct
key, the winner being unspecified. The embedding therefore takes the mask as
a parameter and states which masks are possible via `ValidMask`. -/

/-- An integer voxel cell coordinate. -/
abbrev Cell := ℤ × ℤ × ℤ

/-- Truncation toward zero, the semantics of the Float64 to Int64
static_cast performed by `Tensor::To` on line 140. -/
def truncQ (q : ℚ) : ℤ := if 0 ≤ q then ⌊q⌋ else ⌈q⌉

/-- Lines 139-140: per-axis cell coordinate of one point, (coordinate /
voxel_size) cast to Int64. -/
def quantizeCell (p : V3) (v : ℚ) : Cell :=
  (truncQ (p.x / v), truncQ (p.y / v), truncQ (p.z / v))

/-- Modelled from the spec: the quantization the spec prescribes, an
arithmetic floor of (coordinate / voxel_size) per axis, stated here only to
compare against the `quantizeCell` the code computes. -/
def floorCellSpec (p : V3) (v : ℚ) : Cell := (⌊p.x / v⌋, ⌊p.y / v⌋, ⌊p.z / v⌋)

/-- The quantized keys of all points (line 140). -/
def voxelKeys (pc : PointCloud) (v : ℚ) : List Cell :=
  pc.points.map fun p => quantizeCell p v

/-- The voxel anchor: the cell coordinate cast back to the point dtype and
rescaled by `voxel_size` (lines 150-152). -/
def anchor (c : Cell) (v : ℚ) : V3 :=
  ⟨(c.1 : ℚ) * v, (c.2.1 : ℚ) * v, (c.2.2 : ℚ) * v⟩

/-- `Tensor::IndexGet({masks})`: keep the rows whose mask entry is true. -/
def maskSelect {α : Type} : List Bool → List α → List α
  | b :: ms, x :: xs => if b then x :: maskSelect ms xs else maskSelect ms xs
  | _, _ => []

/-- Modelled from the spec: the contract of the external
`Hashmap::Activate` (line 147). The mask has one entry per input row;
exactly one row per distinct key is marked true, so the selected keys are
duplicate-free and cover every key; which duplicate wins is unspecified. -/
def ValidMask {α : Type} (keys : List α) (mask : List Bool) : Prop :=
  mask.length = keys.length ∧ (maskSelect mask keys).Nodup ∧
    ∀ k ∈ keys, k ∈ maskSelect mask keys

instance {α : Type} [DecidableEq α] (keys : List α) (mask : List Bool) :
    Decidable (ValidMask keys mask) :=
  inferInstanceAs (Decidable (mask.length = keys.length ∧
    (maskSelect mask keys).Nodup ∧ ∀ k ∈ keys, k ∈ maskSelect mask keys))

/-- `PointCloud::VoxelDownSample`, lines 138-163, with the Activate mask as
a parameter: output points are the surviving cells rescaled by `voxel_size`,
and every other attribute is gathered at the same surviving rows. The
function contains no error path: `voxel_size` is never validated, and the
final construction from the map always sees an N x 3 "points" entry. -/
def voxelDownSample (pc : PointCloud) (v : ℚ) (mask : List Bool) : PointCloud :=
  { device := pc.device
    points := (maskSelect mask (voxelKeys pc v)).map fun c => anchor c v
    attrs := pc.attrs.map fun kv => (kv.1, maskSelect mask kv.2) }

/-! ## Concrete fixtures -/

/-- The spec example: points (0,0,0), (0.1,0,0), (5,5,5). -/
def pc3ex : PointCloud := ⟨0, [⟨0, 0, 0⟩, ⟨1/10, 0, 0⟩, ⟨5, 5, 5⟩], []⟩

/-- Two points that floor quantization would separate into cells -1 and 0
but truncation merges into cell 0. -/
def pcNegEx : PointCloud := ⟨0, [⟨-1/10, 0, 0⟩, ⟨1/2, 0, 0⟩], []⟩

/-- A one-point cloud used to exercise a non-positive voxel size. -/
def pcOne : PointCloud := ⟨0, [⟨1, 1, 1⟩], []⟩

/-- The literal result of downsampling the spec example with the mask that
keeps rows 0 and 2. -/
def pcDown1 : PointCloud := ⟨0, [⟨0, 0, 0⟩, ⟨5, 5, 5⟩], []⟩

/-- The spec example extended with a row-aligned "colors" attribute. -/
def pcAttr : PointCloud :=
  ⟨0, [⟨0, 0, 0⟩, ⟨1/10, 0, 0⟩, ⟨5, 5, 5⟩], [("colors", [[7], [8], [9]])]⟩

/-- A small cloud for the transform-op witnesses. -/
def pcTr : PointCloud := ⟨0, [⟨1, 0, 0⟩, ⟨3, 4, 0⟩], []⟩

/-- A length-3 translation tensor on device 0. -/
def tTr : Tensor := ⟨[3], [5, 6, 7], 0⟩

/-- A one-point cloud carrying a "normals" attribute. -/
def pcN : PointCloud := ⟨0, [⟨1, 2, 3⟩], [("normals", [[0, 0, 1]])]⟩

/-- A 4 x 4 homogeneous transform: identity rotation, translation
(10, 20, 30). -/
def tM : Tensor := ⟨[4, 4], [1,0,0,10, 0,1,0,20, 0,0,1,30, 0,0,0,1], 0⟩

/-- A colors tensor for the constructor fixtures. -/
def tColors : Tensor := ⟨[1, 3], [9, 9, 9], 0⟩

/-- A valid 1 x 3 points tensor on device 7. -/
def tPts : Tensor := ⟨[1, 3], [1, 2, 3], 7⟩

/-- A tensor whose shape is not N x 3. -/
def tBadShape : Tensor := ⟨[3], [1, 2, 3], 7⟩

/-! ## Helper lemmas -/


theorem truncQ_intCast (c : ℤ) : truncQ ((c : ℚ)) = c := by
  unfold truncQ
  split <;> simp

theorem truncQ_eq_of_nonneg (q : ℚ) (z : ℤ) (h0 : 0 ≤ q)
    (h1 : (z : ℚ) ≤ q) (h2 : q < (z : ℚ) + 1) : truncQ q = z := by
  rw [truncQ, if_pos h0, Int.floor_eq_iff]
  exact ⟨h1, by exact_mod_cast h2⟩

theorem truncQ_eq_of_neg (q : ℚ) (z : ℤ) (h0 : ¬ 0 ≤ q)
    (h1 : (z : ℚ) - 1 < q) (h2 : q ≤ (z : ℚ)) : truncQ q = z := by
  rw [truncQ, if_neg h0, Int.ceil_eq_iff]
  exact ⟨by exact_mod_cast h1, by exact_mod_cast h2⟩

/-- Re-quantizing a voxel anchor with the same nonzero voxel size recovers
the cell: (c * v) / v = c exactly and truncation is the identity on
integers. -/
theorem quantize_anchor (c : Cell) (v : ℚ) (hv : v ≠ 0) :
    quantizeCell (anchor c v) v = c := by
  obtain ⟨c1, c2, c3⟩ := c
  simp only [quantizeCell, anchor, mul_div_cancel_right₀ _ hv]
  simp [truncQ_intCast]

theorem maskSelect_sublist {α : Type} :
    ∀ (m : List Bool) (l : List α), (maskSelect m l).Sublist l
  | [], l => by
    cases l <;> simp [maskSelect]
  | _ :: _, [] => by simp [maskSelect]
  | b :: ms, x :: xs => by
    rw [maskSelect]
    split
    · exact (maskSelect_sublist ms xs).cons₂ x
    · exact (maskSelect_sublist ms xs).cons x

theorem maskSelect_subset {α : Type} (m : List Bool) (l : List α) :
    maskSelect m l ⊆ l := (maskSelect_sublist m l).subset

theorem maskSelect_length_le {α : Type} (m : List Bool) (l : List α) :
    (maskSelect m l).length ≤ l.length := (maskSelect_sublist m l).length_le

/-- Two row-aligned lists gathered by the same mask keep the same length. -/
theorem maskSelect_length_congr {α β : Type} :
    ∀ (m : List Bool) (l₁ : List α) (l₂ : List β), l₁.length = l₂.length →
      (maskSelect m l₁).length = (maskSelect m l₂).length := by
  intro m
  induction m with
  | nil => intro l₁ l₂ _; cases l₁ <;> cases l₂ <;> simp [maskSelect]
  | cons b ms ih =>
    intro l₁ l₂ h
    cases l₁ with
    | nil => cases l₂ with
      | nil => rfl
      | cons y ys => simp at h
    | cons x xs => cases l₂ with
      | nil => simp at h
      | cons y ys =>
        simp only [List.length_cons, Nat.add_right_cancel_iff] at h
        rw [maskSelect, maskSelect]
        split
        · simpa using ih xs ys h
        · exact ih xs ys h

/-- A mask satisfying the Activate contract selects exactly one row per
distinct key: the selected sublist has the length of the deduplicated key
list. -/
theorem validMask_length {α : Type} [DecidableEq α] {keys : List α}
    {mask : List Bool} (h : ValidMask keys mask) :
    (maskSelect mask keys).length = keys.dedup.length := by
  obtain ⟨-, hnd, hmem⟩ := h
  have hsub : maskSelect mask keys ⊆ keys := maskSelect_subset mask keys
  have hfin : (maskSelect mask keys).toFinset = keys.toFinset := by
    apply Finset.ext
    intro a
    simp only [List.mem_toFinset]
    exact ⟨fun ha => hsub ha, fun ha => hmem a ha⟩
  calc (maskSelect mask keys).length
      = (maskSelect mask keys).toFinset.card :=
        (List.toFinset_card_of_nodup hnd).symm
    _ = keys.toFinset.card := by rw [hfin]
    _ = keys.dedup.length := List.card_toFinset keys

theorem findAttr_map {β : List (List ℚ) → List (List ℚ)} (name : String) :
    ∀ attrs : List (String × List (List ℚ)),
      findAttr name (attrs.map fun kv => (kv.1, β kv.2)) =
        (findAttr name attrs).map β
  | [] => rfl
  | (n, v) :: rest => by
    simp only [List.map_cons, findAttr]
    split
    · rfl
    · exact findAttr_map name rest

theorem findAttr_setAttr (name : String) (rows : List (List ℚ)) :
    ∀ attrs : List (String × List (List ℚ)), (findAttr name attrs).isSome →
      findAttr name (setAttr name rows attrs) = some rows
  | [], h => by simp [findAttr] at h
  | (n, v) :: rest, h => by
    by_cases hn : n = name
    · simp [setAttr, findAttr, hn]
    · simp only [findAttr, if_neg hn] at h
      simp only [setAttr, if_neg hn, findAttr, if_neg hn]
      exact findAttr_setAttr name rows rest h

/-- Summing a component after a uniform shift adds the shift once per row. -/
theorem sum_map_add_const (ps : List V3) (f : V3 → ℚ) (c : ℚ) :
    (ps.map fun p => f p + c).sum = (ps.map f).sum + ps.length * c := by
  induction ps with
  | nil => simp
  | cons p ps ih =>
    simp only [List.map_cons, List.sum_cons, ih, List.length_cons]
    push_cast
    ring

/-- The centroid commutes with a uniform translation of all points. -/
theorem centroid_map_add (ps : List V3) (d : V3) (h : ps ≠ []) :
    centroid (ps.map fun p => addV p d) = addV (centroid ps) d := by
  have hn : (ps.length : ℚ) ≠ 0 := by
    have := List.length_pos.mpr h
    positivity
  ext
  · simp only [centroid, addV, List.length_map, List.map_map, Function.comp_def]
    rw [sum_map_add_const ps V3.x d.x]
    field_simp
    ring
  · simp only [centroid, addV, List.length_map, List.map_map, Function.comp_def]
    rw [sum_map_add_const ps V3.y d.y]
    field_simp
    ring
  · simp only [centroid, addV, List.length_map, List.map_map, Function.comp_def]
    rw [sum_map_add_const ps V3.z d.z]
    field_simp
    ring

/-! ## Evaluation lemmas on the fixtures -/

theorem quantizeCell_eq (p : V3) (v : ℚ) (a b c : ℤ)
    (ha : truncQ (p.x / v) = a) (hb : truncQ (p.y / v) = b)
    (hc : truncQ (p.z / v) = c) : quantizeCell p v = (a, b, c) := by
  rw [quantizeCell, ha, hb, hc]

theorem keys_pc3ex : voxelKeys pc3ex 1 = [(0, 0, 0), (0, 0, 0), (5, 5, 5)] := by
  unfold voxelKeys pc3ex
  simp only [List.map_cons, List.map_nil, List.cons.injEq, and_true]
  refine ⟨?_, ?_, ?_⟩ <;>
    refine quantizeCell_eq _ _ _ _ _ ?_ ?_ ?_ <;>
    refine truncQ_eq_of_nonneg _ _ (by norm_num) (by norm_num) (by norm_num)

theorem keys_pcNegEx : voxelKeys pcNegEx 1 = [(0, 0, 0), (0, 0, 0)] := by
  unfold voxelKeys pcNegEx
  simp only [List.map_cons, List.map_nil, List.cons.injEq, and_true]
  constructor
  · refine quantizeCell_eq _ _ _ _ _ ?_ ?_ ?_
    · exact truncQ_eq_of_neg _ _ (by norm_num) (by norm_num) (by norm_num)
    · exact truncQ_eq_of_nonneg _ _ (by norm_num) (by norm_num) (by norm_num)
    · exact truncQ_eq_of_nonneg _ _ (by norm_num) (by norm_num) (by norm_num)
  · refine quantizeCell_eq _ _ _ _ _ ?_ ?_ ?_ <;>
      refine truncQ_eq_of_nonneg _ _ (by norm_num) (by norm_num) (by norm_num)

theorem keys_pcOne : voxelKeys pcOne (-1) = [(-1, -1, -1)] := by
  unfold voxelKeys pcOne
  simp only [List.map_cons, List.map_nil, List.cons.injEq, and_true]
  refine quantizeCell_eq _ _ _ _ _ ?_ ?_ ?_ <;>
    refine truncQ_eq_of_neg _ _ (by norm_num) (by norm_num) (by norm_num)

/-! ## Claims -/

/-- Claim C1: the claim states that VoxelDownSample quantizes by a true
arithmetic floor of (coordinate / voxel_size) so that -0.1 with voxel size 1
lands in cell -1. The code instead casts with `To(Int64)`, truncation toward
zero: the point (-0.1, 0, 0) lands in cell (0, 0, 0), not (-1, 0, 0) as the
spec floor (`floorCellSpec`) requires, and truncation merges (-0.1, 0, 0)
with (0.5, 0, 0) into a single cell. -/
theorem voxel_quantization_truncates :
    quantizeCell ⟨-1/10, 0, 0⟩ 1 = (0, 0, 0) ∧
    floorCellSpec ⟨-1/10, 0, 0⟩ 1 = (-1, 0, 0) ∧
    ValidMask (voxelKeys pcNegEx 1) [true, false] ∧
    (voxelDownSample pcNegEx 1 [true, false]).points = [⟨0, 0, 0⟩] := by
  refine ⟨?_, ?_, ?_, ?_⟩
  · refine quantizeCell_eq _ _ _ _ _ ?_ ?_ ?_
    · exact truncQ_eq_of_neg _ _ (by norm_num) (by norm_num) (by norm_num)
    · exact truncQ_eq_of_nonneg _ _ (by norm_num) (by norm_num) (by norm_num)
    · exact truncQ_eq_of_nonneg _ _ (by norm_num) (by norm_num) (by norm_num)
  · unfold floorCellSpec
    refine Prod.ext ?_ (Prod.ext ?_ ?_) <;>
    · show Int.floor _ = _
      rw [Int.floor_eq_iff] <;> norm_num
  · rw [keys_pcNegEx]
    decide
  · show (maskSelect [true, false] (voxelKeys pcNegEx 1)).map (fun c => anchor c 1)
      = [⟨0, 0, 0⟩]
    rw [keys_pcNegEx]
    norm_num [maskSelect, anchor]

/-- Claim C2: the claim states that VoxelDownSample fails with
InvalidArgument for every voxel_size below or equal to 0. The code contains
no validation of voxel_size at all: with voxel_size -1 it divides by -1,
quantizes, and returns a downsampled cloud. -/
theorem voxel_no_size_validation :
    ValidMask (voxelKeys pcOne (-1)) [true] ∧
    (voxelDownSample pcOne (-1) [true]).points = [⟨1, 1, 1⟩] ∧
    (voxelDownSample pcOne (-1) [true]).attrs = [] := by
  refine ⟨?_, ?_, rfl⟩
  · rw [keys_pcOne]
    decide
  · show (maskSelect [true] (voxelKeys pcOne (-1))).map (fun c => anchor c (-1))
      = [⟨1, 1, 1⟩]
    rw [keys_pcOne]
    norm_num [maskSelect, anchor]

/-- Claim C3: when "points" is absent, the constructor does fail, but not
with MissingAttribute: the delegating constructor evaluates
`map.at("points").GetDevice()` in its initializer list first, which throws
std::out_of_range, so the MissingAttribute guard in the body is dead code.
The remaining parts of the claim hold: a present "points" entry is validated
as N x 3 (ShapeMismatch otherwise) and the device is taken from it. -/
theorem fromMap_eval :
    fromMap [("colors", tColors)] = .error Err.outOfRange ∧
    fromMap [("points", tPts), ("colors", tColors)] =
      .ok ⟨7, [⟨1, 2, 3⟩], [("colors", [[9, 9, 9]])]⟩ ∧
    fromMap [("points", tBadShape)] = .error Err.shapeMismatch := by
  exact ⟨rfl, rfl, rfl⟩

/-- Claim C4: every output row of VoxelDownSample is the quantized cell of
some input point rescaled by voxel_size (the voxel anchor), never a raw
survivor or an average; on the spec example, every mask satisfying the
Activate contract yields exactly the two anchors (0,0,0) and (5,5,5). -/
theorem voxel_anchor_output (pc : PointCloud) (v : ℚ) (mask : List Bool) :
    (∀ q ∈ (voxelDownSample pc v mask).points,
      ∃ p ∈ pc.points, q = anchor (quantizeCell p v) v) ∧
    ∀ m : List Bool, ValidMask (voxelKeys pc3ex 1) m →
      (voxelDownSample pc3ex 1 m).points = [⟨0, 0, 0⟩, ⟨5, 5, 5⟩] := by
  constructor
  · intro q hq
    simp only [voxelDownSample, List.mem_map] at hq
    obtain ⟨c, hc, rfl⟩ := hq
    have hck := maskSelect_subset mask (voxelKeys pc v) hc
    simp only [voxelKeys, List.mem_map] at hck
    obtain ⟨p, hp, rfl⟩ := hck
    exact ⟨p, hp, rfl⟩
  · intro m hm
    rw [keys_pc3ex] at hm
    have hpts : (voxelDownSample pc3ex 1 m).points
        = (maskSelect m [(0, 0, 0), (0, 0, 0), (5, 5, 5)]).map
            fun c => anchor c 1 := by
      show (maskSelect m (voxelKeys pc3ex 1)).map (fun c => anchor c 1) = _
      rw [keys_pc3ex]
    rw [hpts]
    have hlen : m.length = 3 := by simpa using hm.1
    match m, hlen with
    | [a, b, c], _ =>
      cases a <;> cases b <;> cases c <;>
        first
          | exact absurd hm (by decide)
          | norm_num [maskSelect, anchor]

/-- Claim C5: under the Activate contract, the output point count equals the
number of distinct quantized cells and never exceeds the input count; every
input attribute reappears gathered at the same surviving rows (and hence
with the output row count when it was row-aligned), and attributes absent
from the input stay absent. -/
theorem voxel_counts (pc : PointCloud) (v : ℚ) (mask : List Bool)
    (hvm : ValidMask (voxelKeys pc v) mask) :
    (voxelDownSample pc v mask).points.length = (voxelKeys pc v).dedup.length ∧
    (voxelDownSample pc v mask).points.length ≤ pc.points.length ∧
    (∀ name rows, findAttr name pc.attrs = some rows →
      findAttr name (voxelDownSample pc v mask).attrs =
        some (maskSelect mask rows) ∧
      (rows.length = pc.points.length →
        (maskSelect mask rows).length =
          (voxelDownSample pc v mask).points.length)) ∧
    (∀ name, findAttr name pc.attrs = none →
      findAttr name (voxelDownSample pc v mask).attrs = none) := by
  have hplen : (voxelDownSample pc v mask).points.length
      = (maskSelect mask (voxelKeys pc v)).length := by
    simp [voxelDownSample]
  have hklen : (voxelKeys pc v).length = pc.points.length := by
    simp [voxelKeys]
  refine ⟨?_, ?_, ?_, ?_⟩
  · rw [hplen]
    exact validMask_length hvm
  · rw [hplen, ← hklen]
    exact maskSelect_length_le mask (voxelKeys pc v)
  · intro name rows hr
    constructor
    · show findAttr name (pc.attrs.map fun kv => (kv.1, maskSelect mask kv.2))
        = some (maskSelect mask rows)
      rw [findAttr_map name pc.attrs, hr]
      rfl
    · intro hrows
      rw [hplen]
      exact maskSelect_length_congr mask rows (voxelKeys pc v)
        (hrows.trans hklen.symm)
  · intro name hr
    show findAttr name (pc.attrs.map fun kv => (kv.1, maskSelect mask kv.2)) = none
    rw [findAttr_map name pc.attrs, hr]
    rfl

/-- Claim C6: with `relative = false`, Translate applies the effective
translation v - centroid(points), so the resulting centroid is exactly v;
with `relative = true`, v is added to every point directly. -/
theorem translate_centroid (pc : PointCloud) (t : Tensor)
    (hs : t.shape = [3]) (hd : t.device = pc.device) (hn : pc.points ≠ []) :
    (Translate pc t false).2 = none ∧
    (Translate pc t false).1.1.points =
      pc.points.map (fun p => addV p (subV (v3OfTensor t) (GetCenter pc))) ∧
    centroid (Translate pc t false).1.1.points = v3OfTensor t ∧
    (Translate pc t true).1.1.points =
      pc.points.map fun p => addV p (v3OfTensor t) := by
  simp only [Translate, if_pos hs, if_pos hd, Bool.false_eq_true, if_false,
    if_true]
  refine ⟨trivial, trivial, ?_, trivial⟩
  rw [centroid_map_add pc.points _ hn]
  unfold GetCenter
  ext <;> simp [addV, subV]

/-- Claim C7: Transform replaces each point p by R p + t with R the upper
left 3 x 3 block and t the fourth column of the 4 x 4 matrix, rotates any
present "normals" rows by R without translating them, and leaves the
attribute map untouched when "normals" is absent. -/
theorem transform_spec (pc : PointCloud) (M : Tensor)
    (hs : M.shape = [4, 4]) (hd : M.device = pc.device) :
    (Transform pc M).2 = none ∧
    (Transform pc M).1.points =
      pc.points.map (fun p => addV (mat3App M p) (transPart M)) ∧
    (∀ rows, findAttr "normals" pc.attrs = some rows →
      findAttr "normals" (Transform pc M).1.attrs =
        some (rows.map (mat3AppRow M))) ∧
    (findAttr "normals" pc.attrs = none →
      (Transform pc M).1.attrs = pc.attrs) := by
  simp only [Transform, if_pos hs, if_pos hd]
  refine ⟨trivial, trivial, ?_, ?_⟩
  · intro rows hr
    simp only [hr]
    exact findAttr_setAttr "normals" _ pc.attrs (by rw [hr]; rfl)
  · intro hr
    simp only [hr]

/-- Claim C8: each of Transform, Translate, Scale and Rotate runs all its
shape and device assertions before mutating the bundle, so a failing call
leaves the bundle exactly as it was. -/
theorem transform_ops_atomic (pc : PointCloud) (M tr R c : Tensor)
    (rel : Bool) (s : ℚ) (e : Err) :
    ((Transform pc M).2 = some e → (Transform pc M).1 = pc) ∧
    ((Translate pc tr rel).2 = some e → (Translate pc tr rel).1.1 = pc) ∧
    ((Scale pc s c).2 = some e → (Scale pc s c).1 = pc) ∧
    ((Rotate pc R c).2 = some e → (Rotate pc R c).1 = pc) := by
  refine ⟨?_, ?_, ?_, ?_⟩ <;> intro h
  · unfold Transform at h ⊢
    split_ifs at h ⊢ <;> simp_all
  · unfold Translate at h ⊢
    split_ifs at h ⊢ <;> simp_all
  · unfold Scale at h ⊢
    split_ifs at h ⊢ <;> simp_all
  · unfold Rotate at h ⊢
    split_ifs at h ⊢ <;> simp_all

/-- Claim C9: VoxelDownSample is cell-stable. The anchors of the first pass
re-quantize to their own (pairwise distinct) cells when divided by the same
positive voxel size, so a second pass with any mask satisfying the Activate
contract keeps the point count. -/
theorem voxel_cell_stable (pc : PointCloud) (v : ℚ) (m1 m2 : List Bool)
    (hv : 0 < v) (h1 : ValidMask (voxelKeys pc v) m1)
    (h2 : ValidMask (voxelKeys (voxelDownSample pc v m1) v) m2) :
    (voxelDownSample (voxelDownSample pc v m1) v m2).points.length =
      (voxelDownSample pc v m1).points.length := by
  have hkeys2 : voxelKeys (voxelDownSample pc v m1) v
      = maskSelect m1 (voxelKeys pc v) := by
    show ((maskSelect m1 (voxelKeys pc v)).map fun c => anchor c v).map
        (fun p => quantizeCell p v) = _
    rw [List.map_map]
    rw [List.map_congr_left (g := id)
      (fun c _ => show ((fun p => quantizeCell p v) ∘ fun c => anchor c v) c = id c from
        quantize_anchor c v hv.ne')]
    exact List.map_id _
  have hlen2 : (voxelDownSample (voxelDownSample pc v m1) v m2).points.length
      = (maskSelect m2 (voxelKeys (voxelDownSample pc v m1) v)).length := by
    simp [voxelDownSample]
  have hnd1 : (maskSelect m1 (voxelKeys pc v)).Nodup := h1.2.1
  rw [hlen2, validMask_length h2, hkeys2, hnd1.dedup]
  simp [voxelDownSample]

/-- Claim C10: the local `core::Tensor transform = translation` aliases the
storage of the caller-supplied tensor and `transform -= GetCenter()` writes
through it, so after Translate with `relative = false` the caller's tensor
holds v minus the pre-call centroid; with `relative = true` it is unchanged. -/
theorem translate_mutates_argument (pc : PointCloud) (t : Tensor)
    (hs : t.shape = [3]) (hd : t.device = pc.device) (hn : pc.points ≠ []) :
    (Translate pc t false).1.2 =
      { t with data := [(v3OfTensor t).x - (GetCenter pc).x,
                        (v3OfTensor t).y - (GetCenter pc).y,
                        (v3OfTensor t).z - (GetCenter pc).z] } ∧
    (Translate pc t true).1.2 = t := by
  simp only [Translate, if_pos hs, if_pos hd, Bool.false_eq_true, if_false,
    if_true]
  exact ⟨rfl, trivial⟩

/-! ## Witness instantiations -/

theorem keys_pcAttr : voxelKeys pcAttr 1 = [(0, 0, 0), (0, 0, 0), (5, 5, 5)] :=
  keys_pc3ex

theorem keys_pcDown1 : voxelKeys pcDown1 1 = [(0, 0, 0), (5, 5, 5)] := by
  unfold voxelKeys pcDown1
  simp only [List.map_cons, List.map_nil, List.cons.injEq, and_true]
  constructor <;>
    refine quantizeCell_eq _ _ _ _ _ ?_ ?_ ?_ <;>
    refine truncQ_eq_of_nonneg _ _ (by norm_num) (by norm_num) (by norm_num)

theorem down1_eq : voxelDownSample pc3ex 1 [true, false, true] = pcDown1 := by
  unfold voxelDownSample
  rw [keys_pc3ex]
  norm_num [maskSelect, anchor, pc3ex, pcDown1]

/-- Witness for C4: concrete instantiation at the spec example with the mask
keeping rows 0 and 2. -/
theorem voxel_anchor_output_witness :
    (∃ p ∈ pc3ex.points, (⟨0, 0, 0⟩ : V3) = anchor (quantizeCell p 1) 1) ∧
    (voxelDownSample pc3ex 1 [true, false, true]).points =
      [⟨0, 0, 0⟩, ⟨5, 5, 5⟩] :=
  ⟨(voxel_anchor_output pc3ex 1 [true, false, true]).1 ⟨0, 0, 0⟩
      (by rw [down1_eq]; decide),
   (voxel_anchor_output pc3ex 1 [true, false, true]).2 [true, false, true]
      (by rw [keys_pc3ex]; decide)⟩

/-- Witness for C5: concrete instantiation on the attributed example. -/
theorem voxel_counts_witness :
    (voxelDownSample pcAttr 1 [true, false, true]).points.length
      = (voxelKeys pcAttr 1).dedup.length ∧
    (voxelDownSample pcAttr 1 [true, false, true]).points.length
      ≤ pcAttr.points.length ∧
    findAttr "colors" (voxelDownSample pcAttr 1 [true, false, true]).attrs
      = some (maskSelect [true, false, true] [[7], [8], [9]]) :=
  have h := voxel_counts pcAttr 1 [true, false, true]
    (by rw [keys_pcAttr]; decide)
  ⟨h.1, h.2.1, (h.2.2.1 "colors" [[7], [8], [9]] rfl).1⟩

/-- Witness for C6: concrete instantiation. -/
theorem translate_centroid_witness :
    (Translate pcTr tTr false).2 = none ∧
    (Translate pcTr tTr false).1.1.points =
      pcTr.points.map (fun p => addV p (subV (v3OfTensor tTr) (GetCenter pcTr))) ∧
    centroid (Translate pcTr tTr false).1.1.points = v3OfTensor tTr ∧
    (Translate pcTr tTr true).1.1.points =
      pcTr.points.map (fun p => addV p (v3OfTensor tTr)) :=
  translate_centroid pcTr tTr rfl rfl (by decide)

/-- Witness for C7: concrete instantiation on a cloud with normals. -/
theorem transform_spec_witness :
    (Transform pcN tM).2 = none ∧
    (Transform pcN tM).1.points =
      pcN.points.map (fun p => addV (mat3App tM p) (transPart tM)) ∧
    findAttr "normals" (Transform pcN tM).1.attrs =
      some ([[0, 0, 1]].map (mat3AppRow tM)) :=
  have h := transform_spec pcN tM rfl rfl
  ⟨h.1, h.2.1, h.2.2.1 [[0, 0, 1]] rfl⟩

/-- Witness for C8: failing calls leave the concrete bundle unchanged. -/
theorem transform_ops_atomic_witness :
    (Transform pcTr tBadShape).1 = pcTr ∧
    (Translate pcTr tM true).1.1 = pcTr ∧
    (Scale pcTr 2 tM).1 = pcTr ∧
    (Rotate pcTr tBadShape tM).1 = pcTr :=
  have h := transform_ops_atomic pcTr tBadShape tM tBadShape tM true 2
    Err.shapeMismatch
  ⟨h.1 rfl, h.2.1 rfl, h.2.2.1 rfl, h.2.2.2 rfl⟩

/-- Witness for C9: concrete instantiation of cell stability. -/
theorem voxel_cell_stable_witness :
    (voxelDownSample (voxelDownSample pc3ex 1 [true, false, true]) 1
        [true, true]).points.length
      = (voxelDownSample pc3ex 1 [true, false, true]).points.length :=
  voxel_cell_stable pc3ex 1 [true, false, true] [true, true] (by norm_num)
    (by rw [keys_pc3ex]; decide)
    (by rw [down1_eq, keys_pcDown1]; decide)

/-- Witness for C10: concrete instantiation of the argument mutation. -/
theorem translate_mutates_argument_witness :
    (Translate pcTr tTr false).1.2 =
      { tTr with data := [(v3OfTensor tTr).x - (GetCenter pcTr).x,
                          (v3OfTensor tTr).y - (GetCenter pcTr).y,
                          (v3OfTensor tTr).z - (GetCenter pcTr).z] } ∧
    (Translate pcTr tTr true).1.2 = tTr :=
  translate_mutates_argument pcTr tTr rfl rfl (by decide)

end O3D
